import Mathlib

/-!
Shallow embedding of the e-commerce order fulfilment analysis pipeline
(src/analysis.py): column standardisation, date normalisation,
shipping-date reconciliation and KPI aggregation.

Calendar dates are modelled as integer day numbers (days since
1970-01-01); a pandas NaT / NaN cell is modelled as `none`.  A table
carries an explicit list of column names: reading a column that is not
present raises a KeyError in pandas, modelled by `Except.error`.
-/

/-- Whitespace characters removed by Python str.strip (ASCII subset). -/
def isSpaceChar (c : Char) : Bool :=
  c = ' ' || c = '\t' || c = '\n' || c = '\r' || c = '\x0b' || c = '\x0c'

/-- Drop leading whitespace, as the front half of Python str.strip. -/
def stripLead (l : List Char) : List Char := l.dropWhile isSpaceChar

/-- Drop trailing whitespace, as the back half of Python str.strip. -/
def stripTrail (l : List Char) : List Char :=
  (l.reverse.dropWhile isSpaceChar).reverse

/-- Python str.strip on a string: drop leading and trailing whitespace. -/
def pyStrip (s : String) : String := String.mk (stripTrail (stripLead s.data))

/-- The fixed rename lookup table of clean_orders_data (rename_map),
applied to one column header: known raw spellings map to canonical
snake-case names, anything else passes through. -/
def renameApply (s : String) : String :=
  if s = "Order_ID" then "order_id"
  else if s = "Customer_Region" then "customer_region"
  else if s = "Product_Category" then "product_category"
  else if s = "Order_Date" then "order_date"
  else if s = "Ship_Date" then "ship_date"
  else if s = "Delivery_Date" then "delivery_date"
  else if s = "Shipping_Mode" then "shipping_mode"
  else if s = "Shipping_Cost" then "shipping_cost"
  else if s = "Delivery_Status" then "delivery_status"
  else if s = "Delivery_Days" then "delivery_days"
  else s

/-- One pass of the Column Standardizer on a single header:
trim whitespace, then rename through the fixed lookup table. -/
def standardizeOne (s : String) : String := renameApply (pyStrip s)

/-- The Column Standardizer on a header list
(df.columns = [c.strip() for c in df.columns]; df.rename(columns=rename_map)). -/
def standardizeCols (cols : List String) : List String := cols.map standardizeOne

/-- A raw cell of a date column before pd.to_datetime: empty (NaN),
a value that parses to a calendar date, or an unparseable value. -/
inductive RawDate where
  | missing : RawDate
  | valid : Int → RawDate
  | invalid : String → RawDate
deriving DecidableEq, Repr

/-- One row of the cleaned table.  Field names follow the canonical
column names of analysis.py; a `none` is a pandas NaN / NaT. -/
structure Row where
  order_id : Option String := none
  customer_region : Option String := none
  product_category : Option String := none
  order_date : Option Int := none
  ship_date : Option Int := none
  delivery_date : Option Int := none
  shipping_mode : Option String := none
  shipping_cost : Option ℚ := none
  delivery_status : Option String := none
  delivery_days : Option Int := none
  on_time_flag : Option Int := none
  delay_flag : Option Int := none
deriving DecidableEq, Repr

/-- A cleaned table: the list of column names present, and the rows. -/
structure Table where
  cols : List String
  rows : List Row
deriving DecidableEq, Repr

/-- One row of the raw input table (before date parsing). -/
structure RawRow where
  order_id : Option String := none
  customer_region : Option String := none
  product_category : Option String := none
  order_date : RawDate := RawDate.missing
  ship_date : RawDate := RawDate.missing
  delivery_date : RawDate := RawDate.missing
  shipping_mode : Option String := none
  shipping_cost : Option ℚ := none
  delivery_status : Option String := none
  delivery_days : Option Int := none
deriving DecidableEq, Repr

/-- A raw input table. -/
structure RawTable where
  cols : List String
  rows : List RawRow
deriving DecidableEq, Repr

/-- The Column Standardizer applied to a raw table: only the headers
change (values are addressed structurally in this embedding). -/
def standardizeRawTable (t : RawTable) : RawTable :=
  { t with cols := standardizeCols t.cols }

/-- pd.to_datetime(value, errors="coerce") on one cell: a parseable
date stays a date, anything else becomes missing (NaT). -/
def parseDate : RawDate → Option Int
  | RawDate.missing => none
  | RawDate.valid d => some d
  | RawDate.invalid _ => none

/-- Insertion into a sorted list of integers (ascending). -/
def insertI (x : Int) : List Int → List Int
  | [] => [x]
  | y :: ys => if x ≤ y then x :: y :: ys else y :: insertI x ys

/-- Insertion sort on integers (ascending), used by the median. -/
def sortI : List Int → List Int
  | [] => []
  | x :: xs => insertI x (sortI xs)

/-- Median of an integer series with linear interpolation, as pandas
Series.median on an integer column: sort, take the middle element, or
the mean (a + b) / 2 of the two middle elements for an even length
(written mkRat (a + b) 2, the same rational); the median of an empty
series is NaN (`none`). -/
def median (l : List Int) : Option ℚ :=
  let s := sortI l
  if s.length = 0 then none
  else if s.length % 2 = 1 then (s[s.length / 2]?).map (fun a => (a : ℚ))
  else
    match s[s.length / 2 - 1]?, s[s.length / 2]? with
    | some a, some b => some (mkRat (a + b) 2)
    | _, _ => none

/-- Raw order-to-delivery cycle of a row in whole days
((delivery_date - order_date).dt.days), defined on eligible rows only. -/
def rawCycle (r : Row) : Option Int :=
  match r.order_date, r.delivery_date with
  | some o, some d => some (d - o)
  | _, _ => none

/-- The raw cycles of the eligible rows (mask = both dates notna). -/
def eligCycles (t : Table) : List Int := t.rows.filterMap rawCycle

/-- The non-negative raw cycles of the eligible rows
(total_cycle[total_cycle >= 0]). -/
def nonnegCycles (t : Table) : List Int :=
  (eligCycles t).filter (fun c => 0 ≤ c)

/-- median_cycle = total_cycle[total_cycle >= 0].median(). -/
def medianCycle (t : Table) : Option ℚ :=
  median (nonnegCycles t)

/-- total_cycle.where(total_cycle >= 0, median_cycle) on one cell: a
non-negative cycle is kept, a negative one is replaced by the median
(which is NaN when no non-negative cycle exists). -/
def imputeCycle (med : Option ℚ) (c : Int) : Option ℚ :=
  if 0 ≤ c then some (c : ℚ) else med

/-- Numpy comparison x <= b where x may be NaN: NaN compares false. -/
def oLe (x : Option ℚ) (b : ℚ) : Bool :=
  match x with
  | some q => decide (q ≤ b)
  | none => false

/-- Numpy comparison x > b where x may be NaN: NaN compares false. -/
def oGt (x : Option ℚ) (b : ℚ) : Bool :=
  match x with
  | some q => decide (b < q)
  | none => false

/-- np.select([tc <= 4, (tc > 4) & (tc <= 8), tc > 8], [0, 1, 3],
default=1) applied to the imputed cycle of one row. -/
def dispatchDelay (med : Option ℚ) (c : Int) : Int :=
  let tc := imputeCycle med c
  if oLe tc 4 then 0
  else if oGt tc 4 && oLe tc 8 then 1
  else if oGt tc 8 then 3
  else 1

/-- The per-row update of adjust_shipping_dates: an eligible row gets
ship_date = order_date + dispatch delay and delivery_days =
delivery_date - new ship_date; any other row is untouched. -/
def adjustRow (med : Option ℚ) (r : Row) : Row :=
  match r.order_date, r.delivery_date with
  | some o, some d =>
    let delay := dispatchDelay med (d - o)
    { r with ship_date := some (o + delay),
             delivery_days := some (d - (o + delay)) }
  | _, _ => r

/-- Append a column name if it is not already present, as a pandas
column assignment does. -/
def addCol (cols : List String) (c : String) : List String :=
  if c ∈ cols then cols else cols ++ [c]

/-- adjust_shipping_dates: a no-op unless both order_date and
delivery_date columns exist; otherwise recompute ship_date and
delivery_days on every eligible row from the median-imputed cycle. -/
def adjust_shipping_dates (t : Table) : Table :=
  if "order_date" ∈ t.cols ∧ "delivery_date" ∈ t.cols then
    { cols := addCol (addCol t.cols "ship_date") "delivery_days",
      rows := t.rows.map (adjustRow (medianCycle t)) }
  else t

/-- Python str.lower on one string (per-character ASCII lowering). -/
def pyLower (s : String) : String := String.mk (s.data.map Char.toLower)

/-- df.delivery_status_lower == "delayed" on one cell: a missing
status (NaN) compares unequal, hence not delayed. -/
def isDelayed : Option String → Bool
  | some v => pyLower v = "delayed"
  | none => false

/-- np.where(delivery_status_lower == "delayed", 0, 1) on one cell. -/
def onTimeVal (s : Option String) : Int := if isDelayed s then 0 else 1

/-- The flag-derivation step of clean_orders_data (lines 107-110):
reads the delivery_status column (KeyError when absent), then adds
on_time_flag and delay_flag = 1 - on_time_flag. -/
def flagsStep (t : Table) : Except String Table :=
  if "delivery_status" ∈ t.cols then
    Except.ok
      { cols := addCol (addCol t.cols "on_time_flag") "delay_flag",
        rows := t.rows.map (fun r =>
          { r with on_time_flag := some (onTimeVal r.delivery_status),
                   delay_flag := some (1 - onTimeVal r.delivery_status) }) }
  else Except.error "KeyError: delivery_status"

/-- Whole-day difference of two possibly-missing dates
((a - b).dt.days): NaT propagates to NaN. -/
def subDates : Option Int → Option Int → Option Int
  | some a, some b => some (a - b)
  | _, _ => none

/-- The delivery_days recalculation step of clean_orders_data (lines
113-114): when the column is absent or entirely missing, recompute it
as (delivery_date - ship_date).dt.days. -/
def deliveryDaysStep (t : Table) : Table :=
  if "delivery_days" ∉ t.cols ∨ t.rows.all (fun r => r.delivery_days.isNone) then
    { cols := addCol t.cols "delivery_days",
      rows := t.rows.map (fun r =>
        { r with delivery_days := subDates r.delivery_date r.ship_date }) }
  else t

/-- The date-normalization step of clean_orders_data (lines 103-104):
for col in [order_date, ship_date, delivery_date] in that order, read
the column (KeyError when absent) and coerce every cell with
pd.to_datetime(..., errors="coerce").  Parsing one row. -/
def parseRow (r : RawRow) : Row :=
  { order_id := r.order_id
    customer_region := r.customer_region
    product_category := r.product_category
    order_date := parseDate r.order_date
    ship_date := parseDate r.ship_date
    delivery_date := parseDate r.delivery_date
    shipping_mode := r.shipping_mode
    shipping_cost := r.shipping_cost
    delivery_status := r.delivery_status
    delivery_days := r.delivery_days
    on_time_flag := none
    delay_flag := none }

/-- The date-normalization step on the table: each of the three date
columns is read in loop order, raising KeyError on the first absent
one; otherwise every cell becomes a valid date or missing. -/
def dateNormStep (t : RawTable) : Except String Table :=
  if "order_date" ∉ t.cols then Except.error "KeyError: order_date"
  else if "ship_date" ∉ t.cols then Except.error "KeyError: ship_date"
  else if "delivery_date" ∉ t.cols then Except.error "KeyError: delivery_date"
  else Except.ok { cols := t.cols, rows := t.rows.map parseRow }

/-- clean_orders_data: standardize headers, parse the date columns,
derive the on-time and delay flags, recalculate delivery_days when
absent or all-missing, then adjust the shipping dates. -/
def clean_orders_data (t0 : RawTable) : Except String Table :=
  match dateNormStep (standardizeRawTable t0) with
  | Except.error e => Except.error e
  | Except.ok t2 =>
    match flagsStep t2 with
    | Except.error e => Except.error e
    | Except.ok t3 => Except.ok (adjust_shipping_dates (deliveryDaysStep t3))

/-- Day number of a calendar date (days since 1970-01-01), by the
standard civil-calendar conversion on integers. -/
def daysFromCivil (y m d : Int) : Int :=
  let yy := if m ≤ 2 then y - 1 else y
  let era := (if 0 ≤ yy then yy else yy - 399) / 400
  let yoe := yy - era * 400
  let mp := (m + 9) % 12
  let doy := (153 * mp + 2) / 5 + d - 1
  let doe := yoe * 365 + yoe / 4 - yoe / 100 + doy
  era * 146097 + doe - 719468

/-- Calendar date (year, month, day) of a day number, inverse of
daysFromCivil. -/
def civilFromDays (z0 : Int) : Int × Int × Int :=
  let z := z0 + 719468
  let era := (if 0 ≤ z then z else z - 146096) / 146097
  let doe := z - era * 146097
  let yoe := (doe - doe / 1460 + doe / 36524 - doe / 146096) / 365
  let y := yoe + era * 400
  let doy := doe - (365 * yoe + yoe / 4 - yoe / 100)
  let mp := (5 * doy + 2) / 153
  let d := doy - (153 * mp + 2) / 5 + 1
  let m := mp + (if mp < 10 then 3 else -9)
  (if m ≤ 2 then y + 1 else y, m, d)

/-- order_date.dt.to_period("M").dt.to_timestamp() on one date: the
day number of the first day of the month of the date. -/
def monthStart (z : Int) : Int :=
  let c := civilFromDays z
  daysFromCivil c.1 c.2.1 1

/-- Mean of a series of possibly-missing integers, as pandas
Series.mean: missing values are excluded, the mean of an all-missing
or empty series is NaN (`none`).  The value sum / count is written
mkRat sum count, the same rational. -/
def meanOptI (l : List (Option Int)) : Option ℚ :=
  let v := l.filterMap id
  if v.length = 0 then none else some (mkRat v.sum v.length)

/-- Insertion into a sorted deduplicated list of integer keys
(ascending), as pandas groupby sorts its group keys. -/
def insertKeyI (k : Int) : List Int → List Int
  | [] => [k]
  | x :: xs =>
    if k < x then k :: x :: xs
    else if k = x then x :: xs
    else x :: insertKeyI k xs

/-- Sorted deduplicated integer keys of a list. -/
def sortedKeysI (l : List Int) : List Int := l.foldr insertKeyI []

/-- Insertion into a sorted deduplicated list of string keys
(ascending), as pandas groupby sorts its group keys. -/
def insertKeyS (k : String) : List String → List String
  | [] => [k]
  | x :: xs =>
    if k < x then k :: x :: xs
    else if k = x then x :: xs
    else x :: insertKeyS k xs

/-- Sorted deduplicated string keys of a list. -/
def sortedKeysS (l : List String) : List String := l.foldr insertKeyS []

/-- Keys of a list in order of first occurrence (pandas value_counts
key discovery). -/
def firstOccur (l : List String) : List String :=
  l.foldl (fun acc s => if s ∈ acc then acc else acc ++ [s]) []

/-- Stable insertion into a list of (key, count) pairs sorted by count
descending. -/
def insertCountDesc (x : String × Nat) : List (String × Nat) → List (String × Nat)
  | [] => [x]
  | y :: ys => if y.2 < x.2 then x :: y :: ys else y :: insertCountDesc x ys

/-- Sort (key, count) pairs by count descending. -/
def sortCountDesc (l : List (String × Nat)) : List (String × Nat) :=
  l.foldr insertCountDesc []

/-- Series.value_counts: count each non-missing value, most frequent
first. -/
def valueCounts (l : List (Option String)) : List (String × Nat) :=
  let v := l.filterMap id
  sortCountDesc ((firstOccur v).map (fun k => (k, v.count k)))

/-- Comparison used by sort_values(ascending=False) on a series of
possibly-NaN rationals: larger values first, NaN last. -/
def seriesGE (a b : Option ℚ) : Bool :=
  match a, b with
  | some x, some y => decide (y ≤ x)
  | some _, none => true
  | none, _ => false

/-- Stable insertion for sort_values(ascending=False). -/
def insertValDesc (x : String × Option ℚ) :
    List (String × Option ℚ) → List (String × Option ℚ)
  | [] => [x]
  | y :: ys => if seriesGE x.2 y.2 && !seriesGE y.2 x.2 then x :: y :: ys
               else y :: insertValDesc x ys

/-- Sort a keyed series by value descending, NaN last. -/
def sortValDesc (l : List (String × Option ℚ)) : List (String × Option ℚ) :=
  l.foldr insertValDesc []

/-- df_final.groupby("shipping_mode")["delay_flag"].mean()
.sort_values(ascending=False): group keys are the non-missing shipping
modes, each mapped to the mean delay flag of its rows. -/
def delaysByMode (rows : List Row) : List (String × Option ℚ) :=
  let pairs := rows.filterMap
    (fun r => r.shipping_mode.map (fun m => (m, r.delay_flag)))
  sortValDesc ((sortedKeysS (pairs.map Prod.fst)).map
    (fun k => (k, meanOptI ((pairs.filter (fun p => p.1 = k)).map Prod.snd))))

/-- df_time.groupby("order_month")["order_id"].count(): month keys
come only from rows with a present order_date (NaT groups are
dropped), and each month counts its rows with a non-missing order_id. -/
def deliveriesOverTime (rows : List Row) : List (Int × Nat) :=
  let pairs := rows.filterMap
    (fun r => r.order_date.map (fun d => (monthStart d, r)))
  (sortedKeysI (pairs.map Prod.fst)).map
    (fun k => (k, (pairs.filter (fun p => p.1 = k)).countP
      (fun p => p.2.order_id.isSome)))

/-- A KPI value: a scalar, a keyed series of means, a keyed series of
counts, or a monthly time series of counts. -/
inductive KpiVal where
  | scalar : Option ℚ → KpiVal
  | series : List (String × Option ℚ) → KpiVal
  | counts : List (String × Nat) → KpiVal
  | tseries : List (Int × Nat) → KpiVal
deriving DecidableEq, Repr

/-- compute_kpis: overall_on_time_pct (mean on_time_flag times 100,
written mkRat (100 sum) count) and avg_delivery_days unconditionally
(KeyError when their column is absent), then each guarded KPI exactly
when its guard column is present; delay_flag and order_id are read
inside the shipping_mode and order_date guards without their own
guard. -/
def compute_kpis (t : Table) : Except String (List (String × KpiVal)) :=
  if "on_time_flag" ∉ t.cols then Except.error "KeyError: on_time_flag"
  else if "delivery_days" ∉ t.cols then Except.error "KeyError: delivery_days"
  else if "shipping_mode" ∈ t.cols ∧ "delay_flag" ∉ t.cols then
    Except.error "KeyError: delay_flag"
  else if "order_date" ∈ t.cols ∧ "order_id" ∉ t.cols then
    Except.error "KeyError: order_id"
  else Except.ok (
    [("overall_on_time_pct", KpiVal.scalar
        ((meanOptI (t.rows.map Row.on_time_flag)).map
          (fun q => mkRat (100 * q.num) q.den))),
     ("avg_delivery_days", KpiVal.scalar
        (meanOptI (t.rows.map Row.delivery_days)))]
    ++ (if "shipping_mode" ∈ t.cols then
          [("delays_by_shipping_mode", KpiVal.series (delaysByMode t.rows))]
        else [])
    ++ (if "product_category" ∈ t.cols then
          [("orders_by_category",
            KpiVal.counts (valueCounts (t.rows.map Row.product_category)))]
        else [])
    ++ (if "customer_region" ∈ t.cols then
          [("deliveries_by_region",
            KpiVal.counts (valueCounts (t.rows.map Row.customer_region)))]
        else [])
    ++ (if "order_date" ∈ t.cols then
          [("deliveries_over_time",
            KpiVal.tseries (deliveriesOverTime t.rows))]
        else []))

/-- The bucket rule exactly as the specification words it: cycle ≤ 4
gives class 0, 4 < cycle ≤ 8 gives class 1, cycle > 8 gives class 3. -/
def specBucket (q : ℚ) : Int :=
  if q ≤ 4 then 0 else if 4 < q ∧ q ≤ 8 then 1 else 3

/-- Membership of a row in the calendar month with first day k, as the
groupby key comparison: a missing order_date belongs to no month. -/
def inMonth (k : Int) (r : Row) : Bool :=
  match r.order_date with
  | some d => monthStart d = k
  | none => false

/-- Row A of the three-row reconciliation scenario:
order 2024-01-01, delivery 2024-01-03. -/
def rowA : Row :=
  { order_date := some (daysFromCivil 2024 1 1),
    delivery_date := some (daysFromCivil 2024 1 3) }

/-- Row B of the scenario: order 2024-01-01, delivery 2024-01-07. -/
def rowB : Row :=
  { order_date := some (daysFromCivil 2024 1 1),
    delivery_date := some (daysFromCivil 2024 1 7) }

/-- Row C of the scenario: order 2024-01-01, delivery 2023-12-30
(delivery before order, raw cycle -2). -/
def rowC : Row :=
  { order_date := some (daysFromCivil 2024 1 1),
    delivery_date := some (daysFromCivil 2023 12 30) }

/-- The three-row synthetic scenario table. -/
def scenarioTable : Table :=
  { cols := ["order_date", "ship_date", "delivery_date", "delivery_days"],
    rows := [rowA, rowB, rowC] }

/-- A table whose single eligible row has a negative cycle, so the
non-negative cycle subset is empty and the median is NaN. -/
def negTable : Table :=
  { cols := ["order_date", "delivery_date"],
    rows := [{ order_date := some 0, delivery_date := some (-5) }] }

/-- A raw table lacking the Ship_Date column. -/
def noShipRaw : RawTable :=
  { cols := ["Order_ID", "Order_Date", "Delivery_Date"], rows := [] }

/-- A table lacking on_time_flag (and delivery_days), on which
compute_kpis raises. -/
def noFlagTable : Table :=
  { cols := ["product_category"],
    rows := [{ product_category := some "Books" }] }


/-- A small raw table on which the full cleaning pipeline succeeds:
one delayed order with all dates, and one empty row. -/
def cleanInput : RawTable :=
  { cols := ["Order_ID", "Order_Date", "Ship_Date", "Delivery_Date",
             "Delivery_Status"],
    rows := [
      { order_id := some "1", order_date := RawDate.valid 19723,
        ship_date := RawDate.valid 19723,
        delivery_date := RawDate.valid 19725,
        delivery_status := some "Delayed" },
      {} ] }

/-- The cleaned table produced from cleanInput. -/
def cleanOutput : Table :=
  { cols := ["order_id", "order_date", "ship_date", "delivery_date",
             "delivery_status", "on_time_flag", "delay_flag", "delivery_days"],
    rows := [
      { order_id := some "1", order_date := some 19723,
        ship_date := some 19723, delivery_date := some 19725,
        delivery_status := some "Delayed", delivery_days := some 2,
        on_time_flag := some 0, delay_flag := some 1 },
      { on_time_flag := some 1, delay_flag := some 0 } ] }

/-- A table exercising the deliveries_over_time aggregate: two January
2024 orders (one without order_id) and one row without order_date. -/
def kpiInput : Table :=
  { cols := ["on_time_flag", "delivery_days", "order_date", "order_id"],
    rows := [
      { order_id := some "1", order_date := some 19723,
        on_time_flag := some 1, delivery_days := some 2 },
      { order_date := some 19725 },
      { order_id := some "2" } ] }

/-- The KPI mapping produced from kpiInput. -/
def kpiOutput : List (String × KpiVal) :=
  [("overall_on_time_pct", KpiVal.scalar (some 100)),
   ("avg_delivery_days", KpiVal.scalar (some 2)),
   ("deliveries_over_time", KpiVal.tseries [(19723, 1)])]

/-- A table carrying the two unconditional KPI columns and one guard
column only. -/
def kpiColsOnly : Table :=
  { cols := ["on_time_flag", "delivery_days", "product_category"], rows := [] }

/-- A raw table whose single row has an unparseable order date. -/
def rawWithBadDate : RawTable :=
  { cols := ["order_date", "ship_date", "delivery_date"],
    rows := [{ order_date := RawDate.invalid "not a date",
               delivery_date := RawDate.valid 100 }] }

/-! ### Lemmas about the shipping-date reconciler -/

theorem adjustRow_dates (med : Option ℚ) (r : Row) :
    (adjustRow med r).order_date = r.order_date ∧
    (adjustRow med r).delivery_date = r.delivery_date ∧
    (adjustRow med r).delivery_status = r.delivery_status ∧
    (adjustRow med r).on_time_flag = r.on_time_flag ∧
    (adjustRow med r).delay_flag = r.delay_flag := by
  cases ho : r.order_date <;> cases hd : r.delivery_date <;>
    simp [adjustRow, ho, hd]

theorem adjustRow_not_eligible (med : Option ℚ) (r : Row)
    (h : r.order_date = none ∨ r.delivery_date = none) :
    adjustRow med r = r := by
  cases ho : r.order_date <;> cases hd : r.delivery_date <;>
    simp_all [adjustRow]

theorem adjustRow_eligible (med : Option ℚ) (r : Row) (o d : Int)
    (ho : r.order_date = some o) (hd : r.delivery_date = some d) :
    adjustRow med r =
      { r with ship_date := some (o + dispatchDelay med (d - o)),
               delivery_days := some (d - (o + dispatchDelay med (d - o))) } := by
  unfold adjustRow
  rw [ho, hd]

theorem adjust_rows_eq (t : Table)
    (h1 : "order_date" ∈ t.cols) (h2 : "delivery_date" ∈ t.cols) :
    (adjust_shipping_dates t).rows = t.rows.map (adjustRow (medianCycle t)) := by
  unfold adjust_shipping_dates
  rw [if_pos ⟨h1, h2⟩]

theorem dispatchDelay_eq_specBucket (med : Option ℚ) (c : Int) (q : ℚ)
    (h : imputeCycle med c = some q) :
    dispatchDelay med c = specBucket q := by
  simp only [dispatchDelay, specBucket, h, oLe, oGt]
  by_cases h4 : q ≤ 4
  · simp [h4]
  · by_cases h8 : q ≤ 8
    · simp [h4, h8, not_le.mp h4]
    · simp [h4, h8, not_le.mp h8, fun hq : 4 < q ∧ q ≤ 8 => h8 hq.2]

theorem dispatchDelay_nonneg (med : Option ℚ) (c : Int) :
    0 ≤ dispatchDelay med c := by
  simp only [dispatchDelay]
  split_ifs <;> decide

/-! ### Lemmas about the median -/

theorem length_insertI (x : Int) (l : List Int) :
    (insertI x l).length = l.length + 1 := by
  induction l with
  | nil => rfl
  | cons y ys ih =>
    simp only [insertI]
    split_ifs <;> simp [ih]

theorem length_sortI (l : List Int) : (sortI l).length = l.length := by
  induction l with
  | nil => rfl
  | cons x xs ih => simp [sortI, length_insertI, ih]

theorem mem_insertI {y x : Int} {l : List Int} (h : y ∈ insertI x l) :
    y = x ∨ y ∈ l := by
  induction l with
  | nil => simpa [insertI] using h
  | cons z zs ih =>
    simp only [insertI] at h
    split_ifs at h with hc
    · simpa using h
    · rcases List.mem_cons.mp h with h | h
      · exact Or.inr (by simp [h])
      · rcases ih h with h | h
        · exact Or.inl h
        · exact Or.inr (List.mem_cons_of_mem _ h)

theorem mem_sortI {y : Int} {l : List Int} (h : y ∈ sortI l) : y ∈ l := by
  induction l generalizing y with
  | nil => simp [sortI] at h
  | cons x xs ih =>
    simp only [sortI] at h
    rcases mem_insertI h with h | h
    · simp [h]
    · exact List.mem_cons_of_mem _ (ih h)

theorem median_nonneg {l : List Int} (h0 : ∀ x ∈ l, 0 ≤ x) (hne : l ≠ []) :
    ∃ m, median l = some m ∧ 0 ≤ m := by
  unfold median
  have hlen : (sortI l).length = l.length := length_sortI l
  have hpos : 0 < (sortI l).length := by
    rw [hlen]
    exact List.length_pos.mpr hne
  have hmem : ∀ x ∈ sortI l, (0 : Int) ≤ x := fun x hx => h0 x (mem_sortI hx)
  rw [if_neg (Nat.pos_iff_ne_zero.mp hpos)]
  by_cases hodd : (sortI l).length % 2 = 1
  · rw [if_pos hodd]
    have hidx : (sortI l).length / 2 < (sortI l).length :=
      Nat.div_lt_self hpos (by norm_num)
    rw [List.getElem?_eq_getElem hidx]
    refine ⟨_, rfl, ?_⟩
    show (0 : ℚ) ≤ (((sortI l)[(sortI l).length / 2] : Int) : ℚ)
    exact_mod_cast hmem _ (List.getElem_mem hidx)
  · rw [if_neg hodd]
    have h2 : 2 ≤ (sortI l).length := by omega
    have hi2 : (sortI l).length / 2 < (sortI l).length :=
      Nat.div_lt_self hpos (by norm_num)
    have hi1 : (sortI l).length / 2 - 1 < (sortI l).length := by omega
    rw [List.getElem?_eq_getElem hi1, List.getElem?_eq_getElem hi2]
    refine ⟨_, rfl, ?_⟩
    have ha := hmem _ (List.getElem_mem hi1)
    have hb := hmem _ (List.getElem_mem hi2)
    rw [Rat.mkRat_eq_div]
    apply div_nonneg _ (by norm_num)
    exact_mod_cast add_nonneg ha hb

theorem medianCycle_nonneg (t : Table) (h : nonnegCycles t ≠ []) :
    ∃ m, medianCycle t = some m ∧ 0 ≤ m := by
  apply median_nonneg _ h
  intro x hx
  have := (List.mem_filter.mp hx).2
  simpa using this

/-! ### Claims about the shipping-date reconciler -/

/-- C1: in every table with both date columns, every eligible row of the
adjusted table whose imputed cycle is a value q gets the dispatch delay
class of the spec bucket rule (cycle ≤ 4 → 0, 4 < cycle ≤ 8 → 1,
cycle > 8 → 3) applied to q, and its new ship_date is order_date plus
that class. -/
theorem claim_C1 (t : Table)
    (h1 : "order_date" ∈ t.cols) (h2 : "delivery_date" ∈ t.cols) :
    ∀ r ∈ (adjust_shipping_dates t).rows, ∀ o d q,
      r.order_date = some o → r.delivery_date = some d →
      imputeCycle (medianCycle t) (d - o) = some q →
      dispatchDelay (medianCycle t) (d - o) = specBucket q ∧
      r.ship_date = some (o + specBucket q) := by
  intro r hr o d q ho hd hq
  rw [adjust_rows_eq t h1 h2] at hr
  obtain ⟨r0, hr0, rfl⟩ := List.mem_map.mp hr
  obtain ⟨hod, hdd, -, -, -⟩ := adjustRow_dates (medianCycle t) r0
  rw [hod] at ho
  rw [hdd] at hd
  refine ⟨dispatchDelay_eq_specBucket _ _ _ hq, ?_⟩
  rw [adjustRow_eligible (medianCycle t) r0 o d ho hd]
  simp [dispatchDelay_eq_specBucket _ _ _ hq]

/-- Witness for C1 at the scenario table, row A (cycle 2, class 0). -/
theorem claim_C1_witness :
    ("order_date" ∈ scenarioTable.cols ∧ "delivery_date" ∈ scenarioTable.cols ∧
      imputeCycle (medianCycle scenarioTable)
        (daysFromCivil 2024 1 3 - daysFromCivil 2024 1 1) = some 2) ∧
    dispatchDelay (medianCycle scenarioTable)
      (daysFromCivil 2024 1 3 - daysFromCivil 2024 1 1) = specBucket 2 ∧
    ({ rowA with ship_date := some (daysFromCivil 2024 1 1),
                 delivery_days := some 2 } : Row).ship_date
      = some (daysFromCivil 2024 1 1 + specBucket 2) :=
  ⟨⟨by decide, by decide, by decide⟩,
   claim_C1 scenarioTable (by decide) (by decide)
     { rowA with ship_date := some (daysFromCivil 2024 1 1),
                 delivery_days := some 2 }
     (by decide) (daysFromCivil 2024 1 1) (daysFromCivil 2024 1 3) 2
     rfl rfl (by decide)⟩

/-- C5: in every table with both date columns, every row of the adjusted
table with both dates present has ship_date at least order_date. -/
theorem claim_C5 (t : Table)
    (h1 : "order_date" ∈ t.cols) (h2 : "delivery_date" ∈ t.cols) :
    ∀ r ∈ (adjust_shipping_dates t).rows, ∀ o d,
      r.order_date = some o → r.delivery_date = some d →
      ∃ s, r.ship_date = some s ∧ o ≤ s := by
  intro r hr o d ho hd
  rw [adjust_rows_eq t h1 h2] at hr
  obtain ⟨r0, hr0, rfl⟩ := List.mem_map.mp hr
  obtain ⟨hod, hdd, -, -, -⟩ := adjustRow_dates (medianCycle t) r0
  rw [hod] at ho
  rw [hdd] at hd
  rw [adjustRow_eligible (medianCycle t) r0 o d ho hd]
  refine ⟨o + dispatchDelay (medianCycle t) (d - o), by simp, ?_⟩
  have := dispatchDelay_nonneg (medianCycle t) (d - o)
  omega

/-- Witness for C5 at the scenario table, row B. -/
theorem claim_C5_witness :
    ("order_date" ∈ scenarioTable.cols ∧ "delivery_date" ∈ scenarioTable.cols) ∧
    ∃ s, ({ rowB with ship_date := some (daysFromCivil 2024 1 2),
                      delivery_days := some 5 } : Row).ship_date = some s ∧
      daysFromCivil 2024 1 1 ≤ s :=
  ⟨⟨by decide, by decide⟩,
   claim_C5 scenarioTable (by decide) (by decide)
     { rowB with ship_date := some (daysFromCivil 2024 1 2),
                 delivery_days := some 5 }
     (by decide) (daysFromCivil 2024 1 1) (daysFromCivil 2024 1 7) rfl rfl⟩

/-- C6: a row with order_date or delivery_date missing passes through
adjust_shipping_dates unchanged, at its original position. -/
theorem claim_C6 (t : Table) :
    ∀ (i : Nat) (r : Row), t.rows[i]? = some r →
      r.order_date = none ∨ r.delivery_date = none →
      (adjust_shipping_dates t).rows[i]? = some r := by
  intro i r hi h
  unfold adjust_shipping_dates
  split_ifs with hc
  · show (t.rows.map (adjustRow (medianCycle t)))[i]? = some r
    rw [List.getElem?_map, hi, Option.map_some', adjustRow_not_eligible _ _ h]
  · exact hi

/-- Witness for C6: a row with only order_date set survives unchanged. -/
theorem claim_C6_witness :
    ({ cols := ["order_date", "delivery_date"],
       rows := [{ order_date := some 5 }] } : Table).rows[0]? =
        some { order_date := some 5 } ∧
    (({ order_date := some 5 } : Row).order_date = none ∨
      ({ order_date := some 5 } : Row).delivery_date = none) ∧
    (adjust_shipping_dates
      { cols := ["order_date", "delivery_date"],
        rows := [{ order_date := some 5 }] }).rows[0]? =
        some { order_date := some 5 } :=
  ⟨rfl, Or.inr rfl, claim_C6 _ 0 _ rfl (Or.inr rfl)⟩

/-- C7: the three-row scenario evaluates exactly as described: cycles
2, 6, -2; median of the non-negative cycles 2 and 6 is 4; the imputed
cycle of row C is 4; classes 0, 1, 0; the adjusted rows keep their
delivery dates, get ship dates 2024-01-01, 2024-01-02, 2024-01-01 and
delivery_days 2, 5, -2. -/
theorem claim_C7 :
    rawCycle rowA = some 2 ∧ rawCycle rowB = some 6 ∧
    rawCycle rowC = some (-2) ∧
    medianCycle scenarioTable = some 4 ∧
    imputeCycle (medianCycle scenarioTable) (-2) = some 4 ∧
    dispatchDelay (medianCycle scenarioTable) 2 = 0 ∧
    dispatchDelay (medianCycle scenarioTable) 6 = 1 ∧
    dispatchDelay (medianCycle scenarioTable) (-2) = 0 ∧
    (adjust_shipping_dates scenarioTable).rows =
      [{ rowA with ship_date := some (daysFromCivil 2024 1 1),
                   delivery_days := some 2 },
       { rowB with ship_date := some (daysFromCivil 2024 1 2),
                   delivery_days := some 5 },
       { rowC with ship_date := some (daysFromCivil 2024 1 1),
                   delivery_days := some (-2) }] := by
  decide

/-- C2 as stated is false: negTable has one eligible row (cycle -5),
its non-negative cycle subset is empty, the median is NaN, and the
value used for bucketing is NaN rather than a non-negative number. -/
theorem claim_C2_counterexample :
    ("order_date" ∈ negTable.cols ∧ "delivery_date" ∈ negTable.cols) ∧
    (∃ r ∈ negTable.rows, (rawCycle r).isSome) ∧
    ¬ (∀ r ∈ negTable.rows, ∀ o d,
        r.order_date = some o → r.delivery_date = some d →
        ∃ q, imputeCycle (medianCycle negTable) (d - o) = some q ∧ 0 ≤ q) := by
  refine ⟨⟨by decide, by decide⟩,
    ⟨{ order_date := some 0, delivery_date := some (-5) }, by decide, by decide⟩,
    fun h => ?_⟩
  obtain ⟨q, hq, -⟩ :=
    h { order_date := some 0, delivery_date := some (-5) } (by decide) 0 (-5)
      rfl rfl
  have hev : imputeCycle (medianCycle negTable) ((-5 : Int) - 0) = none := by
    decide
  rw [hev] at hq
  cases hq

/-- C2 amended: if at least one eligible row has a non-negative raw
cycle, then the value used for bucketing on every eligible row is a
non-negative rational, and a negative raw cycle is replaced by the
median of the non-negative cycles. -/
theorem claim_C2_amended (t : Table)
    (_h1 : "order_date" ∈ t.cols) (_h2 : "delivery_date" ∈ t.cols)
    (hne : nonnegCycles t ≠ []) :
    ∀ r ∈ t.rows, ∀ o d, r.order_date = some o → r.delivery_date = some d →
      ∃ q, imputeCycle (medianCycle t) (d - o) = some q ∧ 0 ≤ q ∧
        (d - o < 0 → medianCycle t = some q) := by
  intro r hr o d ho hd
  by_cases hc : 0 ≤ d - o
  · refine ⟨((d - o : Int) : ℚ), ?_, ?_, ?_⟩
    · simp [imputeCycle, hc]
    · exact_mod_cast hc
    · intro hneg; omega
  · obtain ⟨m, hm, hm0⟩ := medianCycle_nonneg t hne
    refine ⟨m, ?_, hm0, fun _ => hm⟩
    simp [imputeCycle, hc, hm]

/-- Witness for the amended C2 at the scenario table, row C. -/
theorem claim_C2_witness :
    ("order_date" ∈ scenarioTable.cols ∧ "delivery_date" ∈ scenarioTable.cols ∧
      nonnegCycles scenarioTable ≠ []) ∧
    ∃ q, imputeCycle (medianCycle scenarioTable)
          (daysFromCivil 2023 12 30 - daysFromCivil 2024 1 1) = some q ∧
        0 ≤ q ∧
        (daysFromCivil 2023 12 30 - daysFromCivil 2024 1 1 < 0 →
          medianCycle scenarioTable = some q) :=
  ⟨⟨by decide, by decide, by decide⟩,
   claim_C2_amended scenarioTable (by decide) (by decide) (by decide) rowC
     (by decide) (daysFromCivil 2024 1 1) (daysFromCivil 2023 12 30) rfl rfl⟩

/-! ### Idempotence of the Column Standardizer -/

theorem dropWhile_head_false {α : Type} {p : α → Bool} {l : List α} {a : α}
    {t : List α} (h : l.dropWhile p = a :: t) : p a = false := by
  induction l with
  | nil => exact absurd h (by simp)
  | cons x xs ih =>
    rw [List.dropWhile_cons] at h
    by_cases hx : p x = true
    · rw [if_pos hx] at h
      exact ih h
    · rw [if_neg hx] at h
      obtain ⟨rfl, -⟩ := List.cons.inj h
      exact Bool.not_eq_true _ ▸ hx

theorem dropWhile_of_head_false {α : Type} {p : α → Bool} {a : α}
    (t : List α) (h : p a = false) : (a :: t).dropWhile p = a :: t := by
  simp [List.dropWhile_cons, h]

theorem dropWhile_idem {α : Type} (p : α → Bool) (l : List α) :
    (l.dropWhile p).dropWhile p = l.dropWhile p := by
  cases h : l.dropWhile p with
  | nil => simp
  | cons a t => exact dropWhile_of_head_false t (dropWhile_head_false h)

theorem dropWhile_append_eq {α : Type} (p : α → Bool) (l : List α) :
    ∃ s, s ++ l.dropWhile p = l := by
  induction l with
  | nil => exact ⟨[], rfl⟩
  | cons x xs ih =>
    by_cases hx : p x = true
    · obtain ⟨s, hs⟩ := ih
      exact ⟨x :: s, by simp [List.dropWhile_cons, hx, hs]⟩
    · exact ⟨[], by simp [List.dropWhile_cons, hx]⟩

theorem stripTrail_idem (l : List Char) : stripTrail (stripTrail l) = stripTrail l := by
  unfold stripTrail
  rw [List.reverse_reverse, dropWhile_idem]

theorem stripTrail_pre (l : List Char) : ∃ s, stripTrail l ++ s = l := by
  obtain ⟨s, hs⟩ := dropWhile_append_eq isSpaceChar l.reverse
  refine ⟨s.reverse, ?_⟩
  have h2 := congrArg List.reverse hs
  rw [List.reverse_append, List.reverse_reverse] at h2
  exact h2

theorem stripLead_stripTrail (u : List Char)
    (hu : u.dropWhile isSpaceChar = u) :
    stripLead (stripTrail u) = stripTrail u := by
  cases h : stripTrail u with
  | nil => rfl
  | cons a t =>
    obtain ⟨s, hs⟩ := stripTrail_pre u
    rw [h] at hs
    have ha : isSpaceChar a = false := by
      apply dropWhile_head_false (l := u)
      rw [hu, ← hs]
      rfl
    exact dropWhile_of_head_false t ha

theorem pyStrip_idem (s : String) : pyStrip (pyStrip s) = pyStrip s := by
  show String.mk (stripTrail (stripLead (stripTrail (stripLead s.data)))) =
    String.mk (stripTrail (stripLead s.data))
  rw [stripLead_stripTrail (stripLead s.data) (dropWhile_idem _ _),
    stripTrail_idem]

theorem standardizeOne_fixed (u : String) (hu : pyStrip u = u) :
    standardizeOne (renameApply u) = renameApply u := by
  unfold renameApply
  split_ifs with h1 h2 h3 h4 h5 h6 h7 h8 h9 h10
  · decide
  · decide
  · decide
  · decide
  · decide
  · decide
  · decide
  · decide
  · decide
  · decide
  · show standardizeOne u = u
    unfold standardizeOne
    rw [hu]
    unfold renameApply
    rw [if_neg h1, if_neg h2, if_neg h3, if_neg h4, if_neg h5, if_neg h6,
      if_neg h7, if_neg h8, if_neg h9, if_neg h10]

theorem standardizeOne_idem (s : String) :
    standardizeOne (standardizeOne s) = standardizeOne s :=
  standardizeOne_fixed (pyStrip s) (pyStrip_idem s)

theorem standardizeCols_idem (cols : List String) :
    standardizeCols (standardizeCols cols) = standardizeCols cols := by
  induction cols with
  | nil => rfl
  | cons c cs ih =>
    show standardizeOne (standardizeOne c) :: standardizeCols (standardizeCols cs)
      = standardizeOne c :: standardizeCols cs
    rw [standardizeOne_idem, ih]

/-- C9: the Column Standardizer (trim headers, then rename through the
fixed lookup table) is idempotent: on a table whose headers are already
standardized, it changes no header. -/
theorem claim_C9 (t : RawTable) (h : ∃ t0, t = standardizeRawTable t0) :
    standardizeRawTable t = t := by
  obtain ⟨t0, rfl⟩ := h
  unfold standardizeRawTable
  rw [standardizeCols_idem]

/-- Witness for C9 at a concrete already-standardized header list. -/
theorem claim_C9_witness :
    ({ cols := ["order_id", "delivery_status", "weird col"], rows := [] } : RawTable)
      = standardizeRawTable
          { cols := [" Order_ID", "Delivery_Status ", "weird col"], rows := [] } ∧
    standardizeRawTable
        { cols := ["order_id", "delivery_status", "weird col"], rows := [] }
      = { cols := ["order_id", "delivery_status", "weird col"], rows := [] } :=
  ⟨by decide,
   claim_C9 { cols := ["order_id", "delivery_status", "weird col"], rows := [] }
     ⟨{ cols := [" Order_ID", "Delivery_Status ", "weird col"], rows := [] },
      by decide⟩⟩

/-! ### Claims about error handling -/

/-- C3 as stated is false: compute_kpis reads on_time_flag (and
delivery_days) unconditionally, so on a table without on_time_flag it
raises a KeyError instead of skipping that KPI. -/
theorem claim_C3_counterexample :
    compute_kpis noFlagTable = Except.error "KeyError: on_time_flag" := rfl

/-- C3 amended: when on_time_flag and delivery_days are present, and
delay_flag accompanies shipping_mode and order_id accompanies
order_date, compute_kpis succeeds and returns exactly the two
unconditional KPIs plus each guarded KPI whose guard column is
present, in source order. -/
theorem claim_C3_amended (t : Table)
    (h1 : "on_time_flag" ∈ t.cols) (h2 : "delivery_days" ∈ t.cols)
    (h3 : "shipping_mode" ∈ t.cols → "delay_flag" ∈ t.cols)
    (h4 : "order_date" ∈ t.cols → "order_id" ∈ t.cols) :
    ∃ m, compute_kpis t = Except.ok m ∧
      m.map Prod.fst =
        ["overall_on_time_pct", "avg_delivery_days"]
        ++ (if "shipping_mode" ∈ t.cols then ["delays_by_shipping_mode"] else [])
        ++ (if "product_category" ∈ t.cols then ["orders_by_category"] else [])
        ++ (if "customer_region" ∈ t.cols then ["deliveries_by_region"] else [])
        ++ (if "order_date" ∈ t.cols then ["deliveries_over_time"] else []) := by
  unfold compute_kpis
  rw [if_neg (not_not_intro h1), if_neg (not_not_intro h2),
    if_neg (fun hy => hy.2 (h3 hy.1)), if_neg (fun hy => hy.2 (h4 hy.1))]
  refine ⟨_, rfl, ?_⟩
  split_ifs <;> simp

/-- Witness for the amended C3 at kpiColsOnly. -/
theorem claim_C3_witness :
    ("on_time_flag" ∈ kpiColsOnly.cols ∧ "delivery_days" ∈ kpiColsOnly.cols ∧
      ("shipping_mode" ∈ kpiColsOnly.cols → "delay_flag" ∈ kpiColsOnly.cols) ∧
      ("order_date" ∈ kpiColsOnly.cols → "order_id" ∈ kpiColsOnly.cols)) ∧
    ∃ m, compute_kpis kpiColsOnly = Except.ok m ∧
      m.map Prod.fst =
        ["overall_on_time_pct", "avg_delivery_days"]
        ++ (if "shipping_mode" ∈ kpiColsOnly.cols then ["delays_by_shipping_mode"] else [])
        ++ (if "product_category" ∈ kpiColsOnly.cols then ["orders_by_category"] else [])
        ++ (if "customer_region" ∈ kpiColsOnly.cols then ["deliveries_by_region"] else [])
        ++ (if "order_date" ∈ kpiColsOnly.cols then ["deliveries_over_time"] else []) :=
  ⟨⟨by decide, by decide, by decide, by decide⟩,
   claim_C3_amended kpiColsOnly (by decide) (by decide) (by decide) (by decide)⟩

/-- C4 as stated is false: the date-parsing loop reads each of the
three date columns, so a table lacking the (optional) ship_date column
makes the step, and the whole of clean_orders_data, raise a KeyError. -/
theorem claim_C4_counterexample :
    "ship_date" ∉ (standardizeRawTable noShipRaw).cols ∧
    dateNormStep (standardizeRawTable noShipRaw) =
      Except.error "KeyError: ship_date" ∧
    clean_orders_data noShipRaw = Except.error "KeyError: ship_date" :=
  ⟨by decide, rfl, rfl⟩

/-- C4 amended: when the three date columns are present, the
date-normalization step never raises: it succeeds, parses every cell
of the three date columns with the coercing parser, and that parser
sends every cell to a valid date or to missing. -/
theorem claim_C4_amended (t : RawTable)
    (h1 : "order_date" ∈ t.cols) (h2 : "ship_date" ∈ t.cols)
    (h3 : "delivery_date" ∈ t.cols) :
    dateNormStep t = Except.ok { cols := t.cols, rows := t.rows.map parseRow } ∧
    (∀ r ∈ t.rows,
      (parseRow r).order_date = parseDate r.order_date ∧
      (parseRow r).ship_date = parseDate r.ship_date ∧
      (parseRow r).delivery_date = parseDate r.delivery_date) ∧
    (∀ c : RawDate, parseDate c = none ∨
      ∃ d, c = RawDate.valid d ∧ parseDate c = some d) := by
  refine ⟨?_, fun r _ => ⟨rfl, rfl, rfl⟩, fun c => ?_⟩
  · unfold dateNormStep
    rw [if_neg (not_not_intro h1), if_neg (not_not_intro h2),
      if_neg (not_not_intro h3)]
  · cases c with
    | missing => exact Or.inl rfl
    | valid d => exact Or.inr ⟨d, rfl, rfl⟩
    | invalid s => exact Or.inl rfl

/-- Witness for the amended C4 at rawWithBadDate. -/
theorem claim_C4_witness :
    ("order_date" ∈ rawWithBadDate.cols ∧ "ship_date" ∈ rawWithBadDate.cols ∧
      "delivery_date" ∈ rawWithBadDate.cols) ∧
    (dateNormStep rawWithBadDate =
      Except.ok { cols := rawWithBadDate.cols,
                  rows := rawWithBadDate.rows.map parseRow } ∧
    (∀ r ∈ rawWithBadDate.rows,
      (parseRow r).order_date = parseDate r.order_date ∧
      (parseRow r).ship_date = parseDate r.ship_date ∧
      (parseRow r).delivery_date = parseDate r.delivery_date) ∧
    (∀ c : RawDate, parseDate c = none ∨
      ∃ d, c = RawDate.valid d ∧ parseDate c = some d)) :=
  ⟨⟨by decide, by decide, by decide⟩,
   claim_C4_amended rawWithBadDate (by decide) (by decide) (by decide)⟩

/-! ### The flag invariant through the cleaning pipeline -/

theorem deliveryDaysStep_rows (u : Table) :
    ∀ r ∈ (deliveryDaysStep u).rows, ∃ r0 ∈ u.rows,
      r.delivery_status = r0.delivery_status ∧
      r.on_time_flag = r0.on_time_flag ∧
      r.delay_flag = r0.delay_flag := by
  intro r hr
  unfold deliveryDaysStep at hr
  split_ifs at hr with hc
  · obtain ⟨r0, hr0, rfl⟩ := List.mem_map.mp hr
    exact ⟨r0, hr0, rfl, rfl, rfl⟩
  · exact ⟨r, hr, rfl, rfl, rfl⟩

theorem adjust_rows_src (u : Table) :
    ∀ r ∈ (adjust_shipping_dates u).rows, ∃ r0 ∈ u.rows,
      r.delivery_status = r0.delivery_status ∧
      r.on_time_flag = r0.on_time_flag ∧
      r.delay_flag = r0.delay_flag := by
  intro r hr
  unfold adjust_shipping_dates at hr
  split_ifs at hr with hc
  · obtain ⟨r0, hr0, rfl⟩ := List.mem_map.mp hr
    obtain ⟨-, -, h3, h4, h5⟩ := adjustRow_dates (medianCycle u) r0
    exact ⟨r0, hr0, h3, h4, h5⟩
  · exact ⟨r, hr, rfl, rfl, rfl⟩

theorem flagsStep_ok {u t : Table} (h : flagsStep u = Except.ok t) :
    ∀ r ∈ t.rows,
      r.on_time_flag = some (onTimeVal r.delivery_status) ∧
      r.delay_flag = some (1 - onTimeVal r.delivery_status) := by
  unfold flagsStep at h
  split_ifs at h with hc
  · cases h
    intro r hr
    obtain ⟨r0, hr0, rfl⟩ := List.mem_map.mp hr
    exact ⟨rfl, rfl⟩

/-- C8: on every successful run of clean_orders_data, each output row
has on_time_flag = 0 exactly when its delivery status lowers to
"delayed" and 1 otherwise, delay_flag = 1 - on_time_flag, the two
flags sum to 1, and on_time_flag is 0 or 1. -/
theorem claim_C8 (t0 : RawTable) (t : Table)
    (h : clean_orders_data t0 = Except.ok t) :
    ∀ r ∈ t.rows,
      r.on_time_flag = some (onTimeVal r.delivery_status) ∧
      r.delay_flag = some (1 - onTimeVal r.delivery_status) ∧
      onTimeVal r.delivery_status + (1 - onTimeVal r.delivery_status) = 1 ∧
      (onTimeVal r.delivery_status = 0 ∨ onTimeVal r.delivery_status = 1) ∧
      (isDelayed r.delivery_status = false → onTimeVal r.delivery_status = 1) := by
  unfold clean_orders_data at h
  cases h1 : dateNormStep (standardizeRawTable t0) with
  | error e => rw [h1] at h; cases h
  | ok t2 =>
    rw [h1] at h
    dsimp only at h
    cases h2 : flagsStep t2 with
    | error e => rw [h2] at h; cases h
    | ok t3 =>
      rw [h2] at h
      cases h
      intro r hr
      obtain ⟨ra, hra, hs1, hf1, hf2⟩ :=
        adjust_rows_src (deliveryDaysStep t3) r hr
      obtain ⟨rb, hrb, hs2, hf3, hf4⟩ := deliveryDaysStep_rows t3 ra hra
      obtain ⟨ho, hd⟩ := flagsStep_ok h2 rb hrb
      rw [hf1, hf3, hf2, hf4, hs1, hs2]
      refine ⟨ho, hd, by omega, ?_, ?_⟩
      · unfold onTimeVal
        split_ifs <;> simp
      · intro hnd
        simp [onTimeVal, hnd]

/-- Witness for C8 on the concrete cleaning run cleanInput ↦
cleanOutput. -/
theorem claim_C8_witness :
    clean_orders_data cleanInput = Except.ok cleanOutput ∧
    ∀ r ∈ cleanOutput.rows,
      r.on_time_flag = some (onTimeVal r.delivery_status) ∧
      r.delay_flag = some (1 - onTimeVal r.delivery_status) ∧
      onTimeVal r.delivery_status + (1 - onTimeVal r.delivery_status) = 1 ∧
      (onTimeVal r.delivery_status = 0 ∨ onTimeVal r.delivery_status = 1) ∧
      (isDelayed r.delivery_status = false → onTimeVal r.delivery_status = 1) :=
  ⟨rfl, claim_C8 cleanInput cleanOutput rfl⟩

/-! ### The deliveries_over_time aggregate -/

theorem mem_insertKeyI {y k : Int} {l : List Int} (h : y ∈ insertKeyI k l) :
    y = k ∨ y ∈ l := by
  induction l with
  | nil => simpa [insertKeyI] using h
  | cons x xs ih =>
    simp only [insertKeyI] at h
    split_ifs at h with hlt heq
    · exact List.mem_cons.mp h
    · exact Or.inr h
    · rcases List.mem_cons.mp h with h | h
      · exact Or.inr (by simp [h])
      · rcases ih h with h | h
        · exact Or.inl h
        · exact Or.inr (List.mem_cons_of_mem _ h)

theorem mem_sortedKeysI {y : Int} {l : List Int} (h : y ∈ sortedKeysI l) :
    y ∈ l := by
  induction l generalizing y with
  | nil => simp [sortedKeysI] at h
  | cons x xs ih =>
    rcases mem_insertKeyI (by simpa [sortedKeysI] using h) with h1 | h1
    · simp [h1]
    · exact List.mem_cons_of_mem _ (ih h1)

theorem countP_filterMap {α β : Type} (f : α → Option β) (P : β → Bool)
    (l : List α) :
    (l.filterMap f).countP P = l.countP (fun a => ((f a).map P).getD false) := by
  induction l with
  | nil => rfl
  | cons x xs ih =>
    cases hx : f x with
    | none => simp [List.filterMap_cons, hx, List.countP_cons, ih]
    | some b => simp [List.filterMap_cons, hx, List.countP_cons, ih]

/-- C10: whenever compute_kpis succeeds on a table with order_date and
order_id columns, the returned mapping carries the deliveries_over_time
aggregate, every month key of that aggregate comes from a row with a
present order_date, and every month's count is the number of rows of
that month with a non-missing order_id — rows missing order_date or
order_id are never counted. -/
theorem claim_C10 (t : Table)
    (h1 : "order_date" ∈ t.cols) (_h2 : "order_id" ∈ t.cols)
    (m : List (String × KpiVal)) (hm : compute_kpis t = Except.ok m) :
    ("deliveries_over_time", KpiVal.tseries (deliveriesOverTime t.rows)) ∈ m ∧
    ∀ (k : Int) (c : Nat), (k, c) ∈ deliveriesOverTime t.rows →
      (∃ r ∈ t.rows, ∃ d, r.order_date = some d ∧ monthStart d = k) ∧
      c = (t.rows.filter (fun r => inMonth k r && r.order_id.isSome)).length := by
  constructor
  · unfold compute_kpis at hm
    split_ifs at hm with ha hb hc hd <;> (cases hm; simp [h1])
  · intro k c hkc
    unfold deliveriesOverTime at hkc
    obtain ⟨k0, hk0, hpair⟩ := List.mem_map.mp hkc
    cases hpair
    constructor
    · have hk1 := mem_sortedKeysI hk0
      obtain ⟨p, hp, hpk⟩ := List.mem_map.mp hk1
      obtain ⟨r, hr, hfr⟩ := List.mem_filterMap.mp hp
      cases ho : r.order_date with
      | none => rw [ho] at hfr; cases hfr
      | some d =>
        rw [ho, Option.map_some'] at hfr
        refine ⟨r, hr, d, ho, ?_⟩
        have h5 := congrArg Prod.fst (Option.some.inj hfr)
        rw [← hpk]
        exact h5
    · rw [List.countP_filter, countP_filterMap, ← List.countP_eq_length_filter]
      apply List.countP_congr
      intro r hr
      cases ho : r.order_date with
      | none => simp [inMonth, ho]
      | some d => simp [inMonth, ho, Bool.and_comm]

/-- Witness for C10 on the concrete run kpiInput ↦ kpiOutput. -/
theorem claim_C10_witness :
    ("order_date" ∈ kpiInput.cols ∧ "order_id" ∈ kpiInput.cols ∧
      compute_kpis kpiInput = Except.ok kpiOutput) ∧
    ("deliveries_over_time", KpiVal.tseries (deliveriesOverTime kpiInput.rows))
        ∈ kpiOutput ∧
    ∀ (k : Int) (c : Nat), (k, c) ∈ deliveriesOverTime kpiInput.rows →
      (∃ r ∈ kpiInput.rows, ∃ d, r.order_date = some d ∧ monthStart d = k) ∧
      c = (kpiInput.rows.filter
            (fun r => inMonth k r && r.order_id.isSome)).length :=
  ⟨⟨by decide, by decide, rfl⟩,
   claim_C10 kpiInput (by decide) (by decide) kpiOutput rfl⟩
